import Mathlib

/-!
Verification of the WIP-limited task lifecycle engine of the task-manager
app.  The definitions below are a shallow embedding of the backend
functions in `functions/src/index.ts` together with the data model of
`types.ts`.  The Firestore `tasks` collection is modelled as a
`List Task`; timestamps are integers (days since an arbitrary epoch);
document writes (`delete`, `set`, `update`) become pure list
transformations keyed by the document id.
-/

namespace TaskManager

/-- Task status enumeration from `types.ts` (`Backlog`, `Today`, `Done`,
`Archive`).  `TODAY` is the "Active" state of the specification, `BACKLOG`
is "Queued", `ARCHIVE` is "Archived". -/
inductive TaskStatus where
  | BACKLOG
  | TODAY
  | DONE
  | ARCHIVE
deriving DecidableEq

/-- Priority enumeration from `types.ts`: P1 highest, P4 lowest. -/
inductive Priority where
  | P1
  | P2
  | P3
  | P4
deriving DecidableEq

/-- The `Task` interface from `functions/src/types.ts`: the document id,
project link, owner uid, title, optional description, priority, status,
creation timestamp, optional due date and optional completion
timestamp. -/
structure Task where
  id : String
  projectId : String
  owner : String
  title : String
  description : Option String
  priority : Priority
  status : TaskStatus
  createdOn : Int
  dueDate : Option Int
  completedOn : Option Int
deriving DecidableEq

/-- The `WipLimits` configuration record of `types.ts`. -/
structure WipLimits where
  p1MaxToday : Nat
  p2MaxToday : Nat
deriving DecidableEq

/-- `DEFAULT_WIP_LIMITS` from `types.ts`: 3 P1 tasks and 5 P2 tasks. -/
def DEFAULT_WIP_LIMITS : WipLimits := { p1MaxToday := 3, p2MaxToday := 5 }

/-- `STALE_TASK_DAYS` from `types.ts`: Backlog tasks older than 90 days
get archived. -/
def STALE_TASK_DAYS : Int := 90

/-- The query of `checkWipLimits`: count of documents with the given
owner, status `Today` and the given priority. -/
def countActive (tasks : List Task) (userId : String) (priority : Priority) : Nat :=
  (tasks.filter fun t =>
    t.owner == userId && t.status == TaskStatus.TODAY && t.priority == priority).length

/-- The limit selection inside `checkWipLimits`: `p1MaxToday` for P1,
otherwise `p2MaxToday`. -/
def limitFor (limits : WipLimits) (priority : Priority) : Nat :=
  if priority = Priority.P1 then limits.p1MaxToday else limits.p2MaxToday

/-- `checkWipLimits` from `index.ts` (lines 242-267): false for P3/P4;
for P1/P2 it counts the current `Today` tasks of the owner at that
priority and reports `currentCount + 1 > limit`. -/
def checkWipLimits (limits : WipLimits) (tasks : List Task)
    (userId : String) (priority : Priority) : Bool :=
  if priority ≠ Priority.P1 ∧ priority ≠ Priority.P2 then
    false
  else
    decide (countActive tasks userId priority + 1 > limitFor limits priority)

/-- A Firestore document delete on the `tasks` collection, keyed by id. -/
def deleteDoc (tasks : List Task) (docId : String) : List Task :=
  tasks.filter fun t => t.id ≠ docId

/-- A Firestore `set` (full overwrite) of the document with the given id. -/
def setDoc (tasks : List Task) (docId : String) (data : Task) : List Task :=
  tasks.map fun t => if t.id = docId then data else t

/-- The `update({completedOn: new Date()})` write of the completion
branch, keyed by document id. -/
def updateCompletedOn (tasks : List Task) (docId : String) (now : Int) : List Task :=
  tasks.map fun t => if t.id = docId then { t with completedOn := some now } else t

/-- `enforceWipOnCreate` from `index.ts` (lines 21-54): the handler runs
after the create already landed, so `tasks` contains the new document.
If the new task is not in `Today` status nothing happens; otherwise if
`checkWipLimits` reports an excess the new document is deleted. -/
def enforceWipOnCreate (limits : WipLimits) (tasks : List Task) (newTask : Task) : List Task :=
  if newTask.status ≠ TaskStatus.TODAY then
    tasks
  else if checkWipLimits limits tasks newTask.owner newTask.priority then
    deleteDoc tasks newTask.id
  else
    tasks

/-- The WIP branch of `enforceWipOnUpdate` (lines 70-88): when the task
moved into `Today` from a non-`Today` status and `checkWipLimits`
reports an excess, the pre-update document is written back verbatim. -/
def wipRevertStep (limits : WipLimits) (tasks : List Task)
    (beforeData afterData : Task) : List Task :=
  if beforeData.status ≠ TaskStatus.TODAY ∧ afterData.status = TaskStatus.TODAY then
    if checkWipLimits limits tasks afterData.owner afterData.priority then
      setDoc tasks afterData.id beforeData
    else
      tasks
  else
    tasks

/-- The completion branch of `enforceWipOnUpdate` (lines 90-96): a
transition from non-`Done` to `Done` stamps `completedOn` with the
current time. -/
def completionStep (now : Int) (tasks : List Task)
    (beforeData afterData : Task) : List Task :=
  if beforeData.status ≠ TaskStatus.DONE ∧ afterData.status = TaskStatus.DONE then
    updateCompletedOn tasks afterData.id now
  else
    tasks

/-- `enforceWipOnUpdate` from `index.ts` (lines 62-98): the WIP branch
runs first, then the completion branch.  The handler runs after the
update already landed, so `tasks` holds `afterData` at the document's
position. -/
def enforceWipOnUpdate (limits : WipLimits) (now : Int) (tasks : List Task)
    (beforeData afterData : Task) : List Task :=
  completionStep now (wipRevertStep limits tasks beforeData afterData) beforeData afterData

/-- Step 1 of `dailyTriage` (lines 120-133): the query selects documents
with status equal to `Today` and different from `Done`, and the batch
sets each of them to `Backlog`. -/
def demoteTask (t : Task) : Task :=
  if t.status = TaskStatus.TODAY ∧ t.status ≠ TaskStatus.DONE then
    { t with status := TaskStatus.BACKLOG }
  else
    t

/-- The state of the collection after step 1 of `dailyTriage`. -/
def demotionPhase (tasks : List Task) : List Task :=
  tasks.map demoteTask

/-- The ordering used by the step-2 query `orderBy("createdOn", "asc")`. -/
def createdOnLE (a b : Task) : Prop :=
  a.createdOn ≤ b.createdOn

instance : DecidableRel createdOnLE :=
  fun a b => inferInstanceAs (Decidable (a.createdOn ≤ b.createdOn))

instance : IsTotal Task createdOnLE :=
  ⟨fun a b => Int.le_total a.createdOn b.createdOn⟩

instance : IsTrans Task createdOnLE :=
  ⟨fun _ _ _ h h' => le_trans h h'⟩

/-- Step 2 of `dailyTriage` (lines 136-140): all `Backlog` documents,
ordered by `createdOn` ascending (a stable sort models the query). -/
def queuedSorted (tasks : List Task) : List Task :=
  (tasks.filter fun t => t.status == TaskStatus.BACKLOG).insertionSort createdOnLE

/-- The grouping `tasksByUser` keeps one entry per owner in order of
first appearance, as JavaScript object keys do. -/
def dedupFirst : List String → List String
  | [] => []
  | x :: xs => x :: dedupFirst (xs.filter fun y => y ≠ x)
termination_by l => l.length
decreasing_by
  exact Nat.lt_succ_of_le (List.length_filter_le _ _)

/-- Step 3 of `dailyTriage` for one owner (lines 156-177): the owner's
backlog tasks are split by priority and the first `p1MaxToday` P1 tasks
and first `p2MaxToday` P2 tasks are promoted. -/
def promoteFor (limits : WipLimits) (backlog : List Task) (userId : String) : List Task :=
  let userTasks := backlog.filter fun t => t.owner == userId
  let p1Tasks := userTasks.filter fun t => t.priority == Priority.P1
  let p2Tasks := userTasks.filter fun t => t.priority == Priority.P2
  p1Tasks.take limits.p1MaxToday ++ p2Tasks.take limits.p2MaxToday

/-- The ids collected into `batch2` across all owners. -/
def promotedIds (limits : WipLimits) (backlog : List Task) : List String :=
  (dedupFirst (backlog.map fun t => t.owner)).flatMap
    fun u => (promoteFor limits backlog u).map fun t => t.id

/-- `dailyTriage` from `index.ts` (lines 111-186): demote every `Today`
task to `Backlog`, then promote per owner the oldest P1/P2 backlog
tasks up to the configured limits. -/
def dailyTriage (limits : WipLimits) (tasks : List Task) : List Task :=
  let s1 := demotionPhase tasks
  let ids := promotedIds limits (queuedSorted s1)
  s1.map fun t => if t.id ∈ ids then { t with status := TaskStatus.TODAY } else t

/-- The query of `archiveOldTasks` (lines 210-214): `Backlog` documents
created before `now - STALE_TASK_DAYS`. -/
def staleSelect (now : Int) (tasks : List Task) : List Task :=
  tasks.filter fun t =>
    t.status == TaskStatus.BACKLOG && decide (t.createdOn < now - STALE_TASK_DAYS)

/-- `archiveOldTasks` from `index.ts` (lines 198-232): if the stale
selection is empty the run returns silently; otherwise every selected
document's status is set to `Archive` in one batch. -/
def archiveOldTasks (now : Int) (tasks : List Task) : List Task :=
  if (staleSelect now tasks).isEmpty then
    tasks
  else
    tasks.map fun t =>
      if t.status = TaskStatus.BACKLOG ∧ t.createdOn < now - STALE_TASK_DAYS then
        { t with status := TaskStatus.ARCHIVE }
      else
        t

/-! ### Basic lemmas about the embedded operations -/

/-- Writing back the status a task already has is the identity. -/
theorem setStatus_self {t : Task} {x : TaskStatus} (h : t.status = x) :
    { t with status := x } = t := by
  cases t
  simp_all

theorem countActive_cons (t : Task) (l : List Task) (u : String) (p : Priority) :
    countActive (t :: l) u p =
      countActive l u p +
        (if t.owner = u ∧ t.status = TaskStatus.TODAY ∧ t.priority = p then 1 else 0) := by
  by_cases h : t.owner = u ∧ t.status = TaskStatus.TODAY ∧ t.priority = p
  · simp [countActive, List.filter_cons, h.1, h.2.1, h.2.2, Nat.add_comm]
  · rw [if_neg h]
    have hb : (t.owner == u && t.status == TaskStatus.TODAY && t.priority == p) = false := by
      by_contra hc
      rw [Bool.not_eq_false, Bool.and_eq_true, Bool.and_eq_true] at hc
      exact h ⟨by simpa using hc.1.1, by simpa using hc.1.2, by simpa using hc.2⟩
    simp [countActive, List.filter_cons, hb]

theorem countActive_mono {l₁ l₂ : List Task} (h : List.Sublist l₁ l₂)
    (u : String) (p : Priority) : countActive l₁ u p ≤ countActive l₂ u p :=
  (h.filter _).length_le

theorem countActive_perm {l₁ l₂ : List Task} (h : List.Perm l₁ l₂)
    (u : String) (p : Priority) : countActive l₁ u p = countActive l₂ u p :=
  (h.filter _).length_eq

theorem setDoc_cons (a b : Task) (rest : List Task)
    (hid : ∀ t ∈ rest, t.id ≠ a.id) : setDoc (a :: rest) a.id b = b :: rest := by
  simp only [setDoc, List.map_cons, if_pos rfl]
  congr 1
  calc rest.map (fun t => if t.id = a.id then b else t)
      = rest.map id := List.map_congr_left fun t ht => by simp [hid t ht]
    _ = rest := List.map_id rest

theorem updateCompletedOn_cons (a : Task) (rest : List Task) (now : Int)
    (hid : ∀ t ∈ rest, t.id ≠ a.id) :
    updateCompletedOn (a :: rest) a.id now = { a with completedOn := some now } :: rest := by
  simp only [updateCompletedOn, List.map_cons, if_pos rfl]
  congr 1
  calc rest.map (fun t => if t.id = a.id then { t with completedOn := some now } else t)
      = rest.map id := List.map_congr_left fun t ht => by simp [hid t ht]
    _ = rest := List.map_id rest

theorem deleteDoc_cons_self (a : Task) (rest : List Task) :
    deleteDoc (a :: rest) a.id = deleteDoc rest a.id := by
  simp [deleteDoc, List.filter_cons]

theorem deleteDoc_sublist (l : List Task) (i : String) :
    List.Sublist (deleteDoc l i) l :=
  List.filter_sublist l

/-- Demotion preserves every field except the status. -/
theorem demoteTask_id (t : Task) : (demoteTask t).id = t.id := by
  unfold demoteTask; split <;> rfl

theorem demoteTask_owner (t : Task) : (demoteTask t).owner = t.owner := by
  unfold demoteTask; split <;> rfl

theorem demoteTask_projectId (t : Task) : (demoteTask t).projectId = t.projectId := by
  unfold demoteTask; split <;> rfl

theorem demoteTask_title (t : Task) : (demoteTask t).title = t.title := by
  unfold demoteTask; split <;> rfl

theorem demoteTask_description (t : Task) : (demoteTask t).description = t.description := by
  unfold demoteTask; split <;> rfl

theorem demoteTask_priority (t : Task) : (demoteTask t).priority = t.priority := by
  unfold demoteTask; split <;> rfl

theorem demoteTask_createdOn (t : Task) : (demoteTask t).createdOn = t.createdOn := by
  unfold demoteTask; split <;> rfl

theorem demoteTask_dueDate (t : Task) : (demoteTask t).dueDate = t.dueDate := by
  unfold demoteTask; split <;> rfl

theorem demoteTask_completedOn (t : Task) : (demoteTask t).completedOn = t.completedOn := by
  unfold demoteTask; split <;> rfl

theorem demoteTask_status_ne_today (t : Task) :
    (demoteTask t).status ≠ TaskStatus.TODAY := by
  unfold demoteTask
  split
  · intro h
    exact absurd h (by simp)
  · next hc =>
    intro h
    exact hc ⟨h, by rw [h]; simp⟩

theorem demoteTask_eq_self (t : Task) (h : t.status ≠ TaskStatus.TODAY) :
    demoteTask t = t := by
  unfold demoteTask
  rw [if_neg]
  intro hc
  exact h hc.1

theorem length_demotionPhase (l : List Task) : (demotionPhase l).length = l.length := by
  simp [demotionPhase]

theorem length_dailyTriage (limits : WipLimits) (l : List Task) :
    (dailyTriage limits l).length = l.length := by
  simp [dailyTriage, demotionPhase]

theorem map_id_demotionPhase (l : List Task) :
    (demotionPhase l).map Task.id = l.map Task.id := by
  rw [demotionPhase, List.map_map]
  exact List.map_congr_left fun t _ => demoteTask_id t

theorem map_createdOn_demotionPhase (l : List Task) :
    (demotionPhase l).map Task.createdOn = l.map Task.createdOn := by
  rw [demotionPhase, List.map_map]
  exact List.map_congr_left fun t _ => demoteTask_createdOn t

theorem mem_demotionPhase_status_ne_today {l : List Task} {t : Task}
    (h : t ∈ demotionPhase l) : t.status ≠ TaskStatus.TODAY := by
  obtain ⟨s, _, rfl⟩ := List.mem_map.mp h
  exact demoteTask_status_ne_today s

/-! ### Sample data used by witnesses and counterexamples -/

/-- A concrete task builder for witnesses. -/
def sample (i o : String) (p : Priority) (st : TaskStatus) (c : Int) : Task :=
  { id := i, projectId := "pr", owner := o, title := "t", description := none,
    priority := p, status := st, createdOn := c, dueDate := none, completedOn := none }

/-- Three P1 tasks of one owner in `Today` status: the post-write state
after the third creation, with the count exactly at the default limit. -/
def atLimitState : List Task :=
  [sample "1" "u" Priority.P1 TaskStatus.TODAY 1,
   sample "2" "u" Priority.P1 TaskStatus.TODAY 2,
   sample "3" "u" Priority.P1 TaskStatus.TODAY 3]

/-! ### C8: the Stale Archiver is idempotent -/

theorem staleSelect_after_archive (now : Int) (tasks : List Task) :
    staleSelect now (archiveOldTasks now tasks) = [] := by
  unfold archiveOldTasks
  split
  · next h => exact List.isEmpty_iff.mp h
  · next h =>
    apply List.filter_eq_nil_iff.mpr
    intro t ht
    obtain ⟨t0, _, rfl⟩ := List.mem_map.mp ht
    by_cases hc : t0.status = TaskStatus.BACKLOG ∧ t0.createdOn < now - STALE_TASK_DAYS
    · simp [hc]
    · rw [if_neg hc]
      intro hcon
      rw [Bool.and_eq_true, beq_iff_eq, decide_eq_true_eq] at hcon
      exact hc ⟨hcon.1, hcon.2⟩

/-- C8: running `archiveOldTasks` twice with the same current time and no
intervening writes gives the same state as one run; the second run's
stale selection is empty, so it is a silent no-op. -/
theorem archiveOldTasks_idempotent (now : Int) (tasks : List Task) :
    archiveOldTasks now (archiveOldTasks now tasks) = archiveOldTasks now tasks ∧
      staleSelect now (archiveOldTasks now tasks) = [] := by
  have h := staleSelect_after_archive now tasks
  refine ⟨?_, h⟩
  conv_lhs => rw [archiveOldTasks]
  rw [if_pos (by rw [h]; rfl)]

/-! ### C7: completion stamping -/

/-- C7: an update transitioning from a non-`Done` status to `Done` leaves
the stored document with `completedOn` stamped to the current time, which
is non-null; for a status change between two non-`Done` values the
completion branch writes nothing at all. -/
theorem completion_recorder_stamps (limits : WipLimits) (now : Int)
    (rest : List Task) (beforeData afterData : Task)
    (hid : ∀ t ∈ rest, t.id ≠ afterData.id) :
    (beforeData.status ≠ TaskStatus.DONE → afterData.status = TaskStatus.DONE →
      enforceWipOnUpdate limits now (afterData :: rest) beforeData afterData =
          { afterData with completedOn := some now } :: rest ∧
        ({ afterData with completedOn := some now } : Task).completedOn ≠ none)
    ∧ (∀ st : List Task, beforeData.status ≠ TaskStatus.DONE →
        afterData.status ≠ TaskStatus.DONE →
        completionStep now st beforeData afterData = st) := by
  constructor
  · intro hb ha
    refine ⟨?_, by simp⟩
    unfold enforceWipOnUpdate wipRevertStep completionStep
    rw [if_pos ⟨hb, ha⟩, if_neg (by rintro ⟨-, h⟩; rw [h] at ha; cases ha)]
    exact updateCompletedOn_cons afterData rest now hid
  · intro st _ ha
    unfold completionStep
    rw [if_neg]
    rintro ⟨-, h⟩
    exact ha h

theorem completion_recorder_stamps_witness :
    enforceWipOnUpdate DEFAULT_WIP_LIMITS 42
        [sample "9" "u" Priority.P2 TaskStatus.DONE 1]
        (sample "9" "u" Priority.P2 TaskStatus.TODAY 1)
        (sample "9" "u" Priority.P2 TaskStatus.DONE 1) =
      [{ sample "9" "u" Priority.P2 TaskStatus.DONE 1 with completedOn := some 42 }] ∧
    completionStep 42 [sample "9" "u" Priority.P2 TaskStatus.TODAY 1]
        (sample "9" "u" Priority.P2 TaskStatus.TODAY 1)
        (sample "9" "u" Priority.P2 TaskStatus.BACKLOG 1) =
      [sample "9" "u" Priority.P2 TaskStatus.TODAY 1] := by
  constructor
  · exact ((completion_recorder_stamps DEFAULT_WIP_LIMITS 42 []
      (sample "9" "u" Priority.P2 TaskStatus.TODAY 1)
      (sample "9" "u" Priority.P2 TaskStatus.DONE 1)
      (by intro t ht; cases ht)).1 (by decide) (by decide)).1
  · exact (completion_recorder_stamps DEFAULT_WIP_LIMITS 42 []
      (sample "9" "u" Priority.P2 TaskStatus.TODAY 1)
      (sample "9" "u" Priority.P2 TaskStatus.BACKLOG 1)
      (by intro t ht; cases ht)).2
      [sample "9" "u" Priority.P2 TaskStatus.TODAY 1] (by decide) (by decide)

/-! ### C3: the rollback restores the pre-update document verbatim -/

/-- C3: a task previously stored as `beforeData` (Queued) that was updated
into `Today` and judged over the limit is written back verbatim: the
whole collection returns to holding exactly `beforeData` at that
document, every field included, and nothing else changes. -/
theorem rollback_restores_verbatim (limits : WipLimits) (now : Int)
    (rest : List Task) (beforeData afterData : Task)
    (hid : ∀ t ∈ rest, t.id ≠ afterData.id)
    (hb : beforeData.status = TaskStatus.BACKLOG)
    (ha : afterData.status = TaskStatus.TODAY)
    (hex : checkWipLimits limits (afterData :: rest) afterData.owner afterData.priority = true) :
    enforceWipOnUpdate limits now (afterData :: rest) beforeData afterData =
      beforeData :: rest := by
  unfold enforceWipOnUpdate wipRevertStep completionStep
  rw [if_neg (by rintro ⟨-, h⟩; rw [h] at ha; cases ha),
    if_pos ⟨(by rw [hb]; intro h; cases h), ha⟩, if_pos hex,
    setDoc_cons afterData beforeData rest hid]

theorem rollback_restores_verbatim_witness :
    enforceWipOnUpdate DEFAULT_WIP_LIMITS 7
        (sample "3" "u" Priority.P1 TaskStatus.TODAY 3 ::
          [sample "1" "u" Priority.P1 TaskStatus.TODAY 1,
           sample "2" "u" Priority.P1 TaskStatus.TODAY 2])
        (sample "3" "u" Priority.P1 TaskStatus.BACKLOG 3)
        (sample "3" "u" Priority.P1 TaskStatus.TODAY 3) =
      [sample "3" "u" Priority.P1 TaskStatus.BACKLOG 3,
       sample "1" "u" Priority.P1 TaskStatus.TODAY 1,
       sample "2" "u" Priority.P1 TaskStatus.TODAY 2] :=
  rollback_restores_verbatim DEFAULT_WIP_LIMITS 7
    [sample "1" "u" Priority.P1 TaskStatus.TODAY 1,
     sample "2" "u" Priority.P1 TaskStatus.TODAY 2]
    (sample "3" "u" Priority.P1 TaskStatus.BACKLOG 3)
    (sample "3" "u" Priority.P1 TaskStatus.TODAY 3)
    (by decide) (by decide) (by decide) (by decide)

/-- For P1/P2 the source condition `currentCount + 1 > limit` says
exactly that the current count has reached the limit. -/
theorem checkWipLimits_eq (limits : WipLimits) (tasks : List Task)
    (o : String) (p : Priority) (hp : p = Priority.P1 ∨ p = Priority.P2) :
    checkWipLimits limits tasks o p =
      decide (limitFor limits p ≤ countActive tasks o p) := by
  unfold checkWipLimits
  rw [if_neg (by rcases hp with h | h <;> rw [h] <;> rintro ⟨h1, h2⟩ <;> simp at h1 h2)]
  congr 1
  exact propext (by omega)

/-! ### C1: the admission boundary condition -/

/-- C1 counterexample: with the default limits, the third P1 creation
brings the post-write `Today` count for owner `u` to exactly the limit
(3), yet `checkWipLimits` reports an excess and `enforceWipOnCreate`
deletes the task instead of accepting it with no action. -/
theorem admission_exact_limit_counterexample :
    countActive atLimitState "u" Priority.P1 = limitFor DEFAULT_WIP_LIMITS Priority.P1 ∧
      checkWipLimits DEFAULT_WIP_LIMITS atLimitState "u" Priority.P1 = true ∧
      enforceWipOnCreate DEFAULT_WIP_LIMITS atLimitState
          (sample "3" "u" Priority.P1 TaskStatus.TODAY 3) ≠ atLimitState := by
  decide

/-- C1 amended: for a P1/P2 admission event the rollback (delete on the
create path, revert on the update path) is performed if and only if the
post-write count of `Today` tasks for that owner and priority, a count
that already includes the written task, is at least the configured
limit, i.e. `count + 1 > limit`; a write that brings the count to
exactly the limit is rolled back. -/
theorem admission_rollback_iff (limits : WipLimits) (now : Int)
    (tasks : List Task) (newTask beforeData afterData : Task) :
    (newTask.status = TaskStatus.TODAY →
      (newTask.priority = Priority.P1 ∨ newTask.priority = Priority.P2) →
      enforceWipOnCreate limits tasks newTask =
        if limitFor limits newTask.priority ≤ countActive tasks newTask.owner newTask.priority
        then deleteDoc tasks newTask.id
        else tasks)
    ∧ (beforeData.status ≠ TaskStatus.TODAY → afterData.status = TaskStatus.TODAY →
      (afterData.priority = Priority.P1 ∨ afterData.priority = Priority.P2) →
      enforceWipOnUpdate limits now tasks beforeData afterData =
        if limitFor limits afterData.priority ≤ countActive tasks afterData.owner afterData.priority
        then setDoc tasks afterData.id beforeData
        else tasks) := by
  have hcheck := fun o p hp => checkWipLimits_eq limits tasks o p hp
  constructor
  · intro hst hp
    unfold enforceWipOnCreate
    rw [if_neg (by rw [hst]; intro h; exact h rfl), hcheck newTask.owner newTask.priority hp]
    by_cases hle : limitFor limits newTask.priority ≤
        countActive tasks newTask.owner newTask.priority
    · rw [if_pos hle, if_pos (by simpa using hle)]
    · rw [if_neg hle, if_neg (by simpa using hle)]
  · intro hbst hast hp
    unfold enforceWipOnUpdate wipRevertStep completionStep
    rw [if_neg (by rintro ⟨-, h⟩; rw [h] at hast; cases hast),
      if_pos ⟨hbst, hast⟩, hcheck afterData.owner afterData.priority hp]
    by_cases hle : limitFor limits afterData.priority ≤
        countActive tasks afterData.owner afterData.priority
    · rw [if_pos hle, if_pos (by simpa using hle)]
    · rw [if_neg hle, if_neg (by simpa using hle)]

theorem admission_rollback_iff_witness :
    enforceWipOnCreate DEFAULT_WIP_LIMITS atLimitState
        (sample "3" "u" Priority.P1 TaskStatus.TODAY 3) =
      (if limitFor DEFAULT_WIP_LIMITS Priority.P1 ≤ countActive atLimitState "u" Priority.P1
       then deleteDoc atLimitState "3"
       else atLimitState) ∧
    enforceWipOnUpdate DEFAULT_WIP_LIMITS 0 atLimitState
        (sample "3" "u" Priority.P1 TaskStatus.BACKLOG 3)
        (sample "3" "u" Priority.P1 TaskStatus.TODAY 3) =
      (if limitFor DEFAULT_WIP_LIMITS Priority.P1 ≤ countActive atLimitState "u" Priority.P1
       then setDoc atLimitState "3" (sample "3" "u" Priority.P1 TaskStatus.BACKLOG 3)
       else atLimitState) :=
  ⟨(admission_rollback_iff DEFAULT_WIP_LIMITS 0 atLimitState
      (sample "3" "u" Priority.P1 TaskStatus.TODAY 3)
      (sample "3" "u" Priority.P1 TaskStatus.BACKLOG 3)
      (sample "3" "u" Priority.P1 TaskStatus.TODAY 3)).1 rfl (Or.inl rfl),
   (admission_rollback_iff DEFAULT_WIP_LIMITS 0 atLimitState
      (sample "3" "u" Priority.P1 TaskStatus.TODAY 3)
      (sample "3" "u" Priority.P1 TaskStatus.BACKLOG 3)
      (sample "3" "u" Priority.P1 TaskStatus.TODAY 3)).2 (by decide) rfl (Or.inl rfl)⟩

/-! ### C2: the WIP cap invariant is preserved by admission processing -/

/-- C2: after the Admission Controller processes an admission event
sequentially (a creation in `Today` status, or an update moving into
`Today` from another status) every owner's count of `Today` tasks at
priority P1 stays within `p1MaxToday` and at P2 within `p2MaxToday`,
provided the counts obeyed the caps before the triggering write; P3/P4
are not constrained. -/
theorem wip_cap_invariant (limits : WipLimits) (now : Int) (rest : List Task)
    (newTask beforeData afterData : Task) :
    ((∀ o p, (p = Priority.P1 ∨ p = Priority.P2) →
        countActive rest o p ≤ limitFor limits p) →
      newTask.status = TaskStatus.TODAY →
      ∀ o p, (p = Priority.P1 ∨ p = Priority.P2) →
        countActive (enforceWipOnCreate limits (newTask :: rest) newTask) o p ≤
          limitFor limits p)
    ∧ ((∀ t ∈ rest, t.id ≠ afterData.id) →
      (∀ o p, (p = Priority.P1 ∨ p = Priority.P2) →
        countActive (beforeData :: rest) o p ≤ limitFor limits p) →
      beforeData.status ≠ TaskStatus.TODAY → afterData.status = TaskStatus.TODAY →
      ∀ o p, (p = Priority.P1 ∨ p = Priority.P2) →
        countActive (enforceWipOnUpdate limits now (afterData :: rest) beforeData afterData) o p ≤
          limitFor limits p) := by
  constructor
  · intro hcap hst o p hp
    unfold enforceWipOnCreate
    rw [if_neg (by rw [hst]; intro h; exact h rfl)]
    by_cases hw : checkWipLimits limits (newTask :: rest) newTask.owner newTask.priority = true
    · rw [if_pos hw, deleteDoc_cons_self]
      exact le_trans (countActive_mono (deleteDoc_sublist rest newTask.id) o p) (hcap o p hp)
    · rw [if_neg hw, countActive_cons]
      split
      · next hm =>
        obtain ⟨ho, -, hp'⟩ := hm
        subst ho
        subst hp'
        rw [checkWipLimits_eq limits _ _ _ hp] at hw
        rw [decide_eq_true_eq, not_le] at hw
        rw [countActive_cons, if_pos ⟨rfl, hst, rfl⟩] at hw
        omega
      · next => simpa using hcap o p hp
  · intro hid hcap hbst hast o p hp
    unfold enforceWipOnUpdate wipRevertStep completionStep
    rw [if_neg (by rintro ⟨-, h⟩; rw [h] at hast; cases hast), if_pos ⟨hbst, hast⟩]
    by_cases hw : checkWipLimits limits (afterData :: rest) afterData.owner afterData.priority = true
    · rw [if_pos hw, setDoc_cons afterData beforeData rest hid]
      exact hcap o p hp
    · rw [if_neg hw, countActive_cons]
      split
      · next hm =>
        obtain ⟨ho, -, hp'⟩ := hm
        subst ho
        subst hp'
        rw [checkWipLimits_eq limits _ _ _ hp] at hw
        rw [decide_eq_true_eq, not_le] at hw
        rw [countActive_cons, if_pos ⟨rfl, hast, rfl⟩] at hw
        omega
      · next =>
        have h2 := hcap o p hp
        rw [countActive_cons] at h2
        omega

theorem wip_cap_invariant_witness :
    countActive
        (enforceWipOnCreate DEFAULT_WIP_LIMITS
          (sample "3" "u" Priority.P1 TaskStatus.TODAY 3 ::
            [sample "1" "u" Priority.P1 TaskStatus.TODAY 1,
             sample "2" "u" Priority.P1 TaskStatus.TODAY 2])
          (sample "3" "u" Priority.P1 TaskStatus.TODAY 3)) "u" Priority.P1 ≤
      limitFor DEFAULT_WIP_LIMITS Priority.P1 ∧
    countActive
        (enforceWipOnUpdate DEFAULT_WIP_LIMITS 5
          (sample "3" "u" Priority.P1 TaskStatus.TODAY 3 ::
            [sample "1" "u" Priority.P1 TaskStatus.TODAY 1,
             sample "2" "u" Priority.P1 TaskStatus.TODAY 2])
          (sample "3" "u" Priority.P1 TaskStatus.BACKLOG 3)
          (sample "3" "u" Priority.P1 TaskStatus.TODAY 3)) "u" Priority.P1 ≤
      limitFor DEFAULT_WIP_LIMITS Priority.P1 :=
  ⟨(wip_cap_invariant DEFAULT_WIP_LIMITS 5
      [sample "1" "u" Priority.P1 TaskStatus.TODAY 1,
       sample "2" "u" Priority.P1 TaskStatus.TODAY 2]
      (sample "3" "u" Priority.P1 TaskStatus.TODAY 3)
      (sample "3" "u" Priority.P1 TaskStatus.BACKLOG 3)
      (sample "3" "u" Priority.P1 TaskStatus.TODAY 3)).1
      (by
        intro o p hp
        have h1 : countActive
            [sample "1" "u" Priority.P1 TaskStatus.TODAY 1,
             sample "2" "u" Priority.P1 TaskStatus.TODAY 2] o p ≤ 2 :=
          List.length_filter_le _ _
        rcases hp with h | h <;> subst h <;>
          simp [limitFor, DEFAULT_WIP_LIMITS] <;> omega)
      rfl "u" Priority.P1 (Or.inl rfl),
   (wip_cap_invariant DEFAULT_WIP_LIMITS 5
      [sample "1" "u" Priority.P1 TaskStatus.TODAY 1,
       sample "2" "u" Priority.P1 TaskStatus.TODAY 2]
      (sample "3" "u" Priority.P1 TaskStatus.TODAY 3)
      (sample "3" "u" Priority.P1 TaskStatus.BACKLOG 3)
      (sample "3" "u" Priority.P1 TaskStatus.TODAY 3)).2
      (by decide)
      (by
        intro o p hp
        have h1 : countActive
            [sample "3" "u" Priority.P1 TaskStatus.BACKLOG 3,
             sample "1" "u" Priority.P1 TaskStatus.TODAY 1,
             sample "2" "u" Priority.P1 TaskStatus.TODAY 2] o p ≤ 3 :=
          List.length_filter_le _ _
        rcases hp with h | h <;> subst h <;>
          simp [limitFor, DEFAULT_WIP_LIMITS] <;> omega)
      (by decide) rfl "u" Priority.P1 (Or.inl rfl)⟩

/-! ### Lemmas about the promotion machinery of the Daily Triage -/

theorem mem_dedupFirst (x : String) (l : List String) :
    x ∈ dedupFirst l ↔ x ∈ l := by
  induction l using dedupFirst.induct with
  | case1 => rw [dedupFirst]
  | case2 y ys ih =>
    rw [dedupFirst]
    simp only [List.mem_cons, ih]
    constructor
    · rintro (rfl | h)
      · exact Or.inl rfl
      · exact Or.inr (List.mem_filter.mp h).1
    · rintro (rfl | h)
      · exact Or.inl rfl
      · by_cases hxy : x = y
        · exact Or.inl hxy
        · exact Or.inr (List.mem_filter.mpr ⟨h, by simpa using hxy⟩)

theorem mem_promoteFor {limits : WipLimits} {backlog : List Task} {u : String}
    {t : Task} (h : t ∈ promoteFor limits backlog u) :
    t ∈ backlog ∧ t.owner = u ∧ (t.priority = Priority.P1 ∨ t.priority = Priority.P2) := by
  unfold promoteFor at h
  rcases List.mem_append.mp h with h | h
  · have h2 := List.mem_filter.mp (List.mem_of_mem_take h)
    have h3 := List.mem_filter.mp h2.1
    exact ⟨h3.1, by simpa using h3.2, Or.inl (by simpa using h2.2)⟩
  · have h2 := List.mem_filter.mp (List.mem_of_mem_take h)
    have h3 := List.mem_filter.mp h2.1
    exact ⟨h3.1, by simpa using h3.2, Or.inr (by simpa using h2.2)⟩

theorem mem_promotedIds_iff (limits : WipLimits) (q : List Task)
    (hnod : (q.map Task.id).Nodup) (t : Task) (ht : t ∈ q) :
    t.id ∈ promotedIds limits q ↔
      (t ∈ ((q.filter fun s => s.owner == t.owner).filter
          fun s => s.priority == Priority.P1).take limits.p1MaxToday
       ∨ t ∈ ((q.filter fun s => s.owner == t.owner).filter
          fun s => s.priority == Priority.P2).take limits.p2MaxToday) := by
  unfold promotedIds
  rw [List.mem_flatMap]
  constructor
  · rintro ⟨u, _, hmem⟩
    obtain ⟨s, hs, hsid⟩ := List.mem_map.mp hmem
    obtain ⟨hsq, hso, -⟩ := mem_promoteFor hs
    have hst : s = t := List.inj_on_of_nodup_map hnod hsq ht hsid
    subst hst
    subst hso
    unfold promoteFor at hs
    exact List.mem_append.mp hs
  · intro h
    refine ⟨t.owner, (mem_dedupFirst _ _).mpr (List.mem_map_of_mem _ ht), ?_⟩
    apply List.mem_map_of_mem
    unfold promoteFor
    exact List.mem_append.mpr h

/-- Decoding a promoted id against the full post-demotion state: the
task carrying it is a `Backlog` task of priority P1 or P2. -/
theorem mem_promotedIds_elim (limits : WipLimits) (s1 : List Task)
    (hids : (s1.map Task.id).Nodup) {t : Task} (ht : t ∈ s1)
    (hmem : t.id ∈ promotedIds limits (queuedSorted s1)) :
    t.status = TaskStatus.BACKLOG ∧
      (t.priority = Priority.P1 ∨ t.priority = Priority.P2) := by
  unfold promotedIds at hmem
  obtain ⟨u, -, hmem⟩ := List.mem_flatMap.mp hmem
  obtain ⟨s, hs, hsid⟩ := List.mem_map.mp hmem
  obtain ⟨hsq, -, hsp⟩ := mem_promoteFor hs
  have hsq' : s ∈ s1.filter fun x => x.status == TaskStatus.BACKLOG :=
    (List.perm_insertionSort createdOnLE _).subset hsq
  have h2 := List.mem_filter.mp hsq'
  have hst : s = t := List.inj_on_of_nodup_map hids h2.1 ht hsid
  subst hst
  exact ⟨by simpa using h2.2, hsp⟩

/-- In a list sorted by creation time with no duplicate timestamps, being
among the first `k` elements is the same as having fewer than `k`
strictly older elements. -/
theorem mem_take_iff_rank {l : List Task} (hs : List.Sorted createdOnLE l)
    (hk : (l.map Task.createdOn).Nodup) {t : Task} (ht : t ∈ l) :
    ∀ k, t ∈ l.take k ↔
      (l.filter fun s => decide (s.createdOn < t.createdOn)).length < k := by
  induction l with
  | nil => cases ht
  | cons a tl ih =>
    intro k
    rw [List.sorted_cons] at hs
    rw [List.map_cons, List.nodup_cons] at hk
    rcases List.mem_cons.mp ht with rfl | htl
    · have hfilter : tl.filter (fun s => decide (s.createdOn < t.createdOn)) = [] := by
        apply List.filter_eq_nil_iff.mpr
        intro s hs'
        have h1 : t.createdOn ≤ s.createdOn := hs.1 s hs'
        simp only [decide_eq_true_eq, not_lt]
        exact h1
      cases k with
      | zero => simp
      | succ k' =>
        rw [List.take_succ_cons, List.filter_cons]
        simp [hfilter]
    · have hne : a.createdOn ≠ t.createdOn :=
        fun hEq => hk.1 (hEq ▸ List.mem_map_of_mem _ htl)
      have hlt : a.createdOn < t.createdOn := lt_of_le_of_ne (hs.1 t htl) hne
      have hta : ¬ (t = a) := fun hEq => hne (by rw [hEq])
      cases k with
      | zero => simp
      | succ k' =>
        rw [List.take_succ_cons, List.filter_cons]
        simp only [decide_eq_true_eq]
        rw [if_pos hlt]
        rw [List.mem_cons]
        simp only [hta, false_or, List.length_cons]
        rw [ih hs.2 hk.2 htl k']
        omega

theorem length_archiveOldTasks (now : Int) (l : List Task) :
    (archiveOldTasks now l).length = l.length := by
  unfold archiveOldTasks
  split <;> simp

theorem mem_setDoc_of_ne {l : List Task} {t : Task} (ht : t ∈ l) {i : String}
    (hne : t.id ≠ i) (b : Task) : t ∈ setDoc l i b := by
  unfold setDoc
  rw [List.mem_map]
  exact ⟨t, ht, if_neg hne⟩

theorem mem_updateCompletedOn_of_ne {l : List Task} {t : Task} (ht : t ∈ l) {i : String}
    (hne : t.id ≠ i) (now : Int) : t ∈ updateCompletedOn l i now := by
  unfold updateCompletedOn
  rw [List.mem_map]
  exact ⟨t, ht, if_neg hne⟩

theorem get_congr {l l' : List Task} (h : l = l') (i : Nat)
    (hi : i < l.length) (hi' : i < l'.length) : l.get ⟨i, hi⟩ = l'.get ⟨i, hi'⟩ := by
  subst h
  rfl

/-- A document whose id differs from the event document's id survives the
update handler unchanged. -/
theorem mem_enforceWipOnUpdate_of_ne {limits : WipLimits} {now : Int}
    {st : List Task} {beforeData afterData t : Task} (ht : t ∈ st)
    (hne : t.id ≠ afterData.id) :
    t ∈ enforceWipOnUpdate limits now st beforeData afterData := by
  unfold enforceWipOnUpdate wipRevertStep completionStep
  split_ifs <;>
    first
      | exact ht
      | exact mem_updateCompletedOn_of_ne ht hne now
      | exact mem_setDoc_of_ne ht hne beforeData
      | exact mem_updateCompletedOn_of_ne (mem_setDoc_of_ne ht hne beforeData) hne now

/-! ### C5: P3/P4 tasks are never promoted by the Daily Triage -/

/-- C5: a Daily Triage run never leaves a P3 or P4 task in `Today`
status, whatever its age, owner or the rest of the collection (the
collection carries duplicate-free document ids). -/
theorem triage_never_promotes_p3_p4 (limits : WipLimits) (tasks : List Task)
    (hids : (tasks.map Task.id).Nodup) (i : Nat) (hi : i < tasks.length)
    (hp : (tasks.get ⟨i, hi⟩).priority = Priority.P3 ∨
      (tasks.get ⟨i, hi⟩).priority = Priority.P4) :
    ((dailyTriage limits tasks).get
        ⟨i, by rw [length_dailyTriage]; exact hi⟩).status ≠ TaskStatus.TODAY := by
  have hids1 : ((demotionPhase tasks).map Task.id).Nodup := by
    rw [map_id_demotionPhase]; exact hids
  have e1 : (dailyTriage limits tasks).get ⟨i, by rw [length_dailyTriage]; exact hi⟩ =
      (if (demoteTask (tasks.get ⟨i, hi⟩)).id ∈
          promotedIds limits (queuedSorted (demotionPhase tasks))
       then { demoteTask (tasks.get ⟨i, hi⟩) with status := TaskStatus.TODAY }
       else demoteTask (tasks.get ⟨i, hi⟩)) := by
    simp [dailyTriage, demotionPhase, List.get_eq_getElem, List.getElem_map]
  rw [e1]
  split
  · next hmem =>
    have htmem : demoteTask (tasks.get ⟨i, hi⟩) ∈ demotionPhase tasks :=
      List.mem_map_of_mem demoteTask (tasks.get_mem i hi)
    have h2 := (mem_promotedIds_elim limits (demotionPhase tasks) hids1 htmem hmem).2
    rw [demoteTask_priority] at h2
    rcases hp with h | h <;> rw [h] at h2 <;> rcases h2 with h2 | h2 <;> cases h2
  · exact demoteTask_status_ne_today _

theorem triage_never_promotes_p3_p4_witness :
    ((dailyTriage DEFAULT_WIP_LIMITS
        [sample "a" "u" Priority.P3 TaskStatus.BACKLOG 0]).get
      ⟨0, by decide⟩).status ≠ TaskStatus.TODAY :=
  triage_never_promotes_p3_p4 DEFAULT_WIP_LIMITS
    [sample "a" "u" Priority.P3 TaskStatus.BACKLOG 0]
    (by decide) 0 (by decide) (Or.inl (by decide))

/-! ### C9: no resurrection from Archived -/

/-- C9: none of the four core operations moves a task out of `Archive`:
an archived document survives the create handler, the update handler,
the Daily Triage and the Stale Archiver with its value (in particular
its status) unchanged. -/
theorem no_resurrection_from_archive (limits : WipLimits) (now : Int)
    (rest : List Task) (newTask beforeData afterData : Task) (tasks : List Task) :
    ((∀ t ∈ rest, t.id ≠ newTask.id) →
      ∀ t ∈ newTask :: rest, t.status = TaskStatus.ARCHIVE →
        t ∈ enforceWipOnCreate limits (newTask :: rest) newTask)
    ∧ ((∀ t ∈ rest, t.id ≠ afterData.id) →
      ∀ t ∈ afterData :: rest, t.status = TaskStatus.ARCHIVE →
        t ∈ enforceWipOnUpdate limits now (afterData :: rest) beforeData afterData)
    ∧ ((tasks.map Task.id).Nodup →
      ∀ i, (hi : i < tasks.length) → (tasks.get ⟨i, hi⟩).status = TaskStatus.ARCHIVE →
        (dailyTriage limits tasks).get ⟨i, by rw [length_dailyTriage]; exact hi⟩ =
          tasks.get ⟨i, hi⟩)
    ∧ (∀ i, (hi : i < tasks.length) → (tasks.get ⟨i, hi⟩).status = TaskStatus.ARCHIVE →
        (archiveOldTasks now tasks).get ⟨i, by rw [length_archiveOldTasks]; exact hi⟩ =
          tasks.get ⟨i, hi⟩) := by
  refine ⟨?_, ?_, ?_, ?_⟩
  · intro hid t htmem harch
    unfold enforceWipOnCreate
    split_ifs with h1 h2
    · exact htmem
    · rcases List.mem_cons.mp htmem with rfl | hmem
      · rw [not_not] at h1
        rw [harch] at h1
        cases h1
      · exact List.mem_filter.mpr ⟨List.mem_cons_of_mem _ hmem, by simpa using hid t hmem⟩
    · exact htmem
  · intro hid t htmem harch
    rcases List.mem_cons.mp htmem with rfl | hmem
    · unfold enforceWipOnUpdate wipRevertStep completionStep
      rw [if_neg (by rintro ⟨-, h⟩; rw [harch] at h; cases h),
        if_neg (by rintro ⟨-, h⟩; rw [harch] at h; cases h)]
      exact htmem
    · exact mem_enforceWipOnUpdate_of_ne htmem (hid t hmem)
  · intro hids i hi harch
    have hids1 : ((demotionPhase tasks).map Task.id).Nodup := by
      rw [map_id_demotionPhase]; exact hids
    have hd : demoteTask (tasks.get ⟨i, hi⟩) = tasks.get ⟨i, hi⟩ :=
      demoteTask_eq_self _ (by rw [harch]; intro h; cases h)
    have e1 : (dailyTriage limits tasks).get ⟨i, by rw [length_dailyTriage]; exact hi⟩ =
        (if (demoteTask (tasks.get ⟨i, hi⟩)).id ∈
            promotedIds limits (queuedSorted (demotionPhase tasks))
         then { demoteTask (tasks.get ⟨i, hi⟩) with status := TaskStatus.TODAY }
         else demoteTask (tasks.get ⟨i, hi⟩)) := by
      simp [dailyTriage, demotionPhase, List.get_eq_getElem, List.getElem_map]
    rw [e1]
    split
    · next hmem =>
      have htmem : demoteTask (tasks.get ⟨i, hi⟩) ∈ demotionPhase tasks :=
        List.mem_map_of_mem demoteTask (tasks.get_mem i hi)
      have h2 := (mem_promotedIds_elim limits (demotionPhase tasks) hids1 htmem hmem).1
      rw [hd, harch] at h2
      cases h2
    · exact hd
  · intro i hi harch
    by_cases hemp : (staleSelect now tasks).isEmpty = true
    · have e0 : archiveOldTasks now tasks = tasks := by
        unfold archiveOldTasks
        rw [if_pos hemp]
      exact get_congr e0 i _ hi
    · have e0 : archiveOldTasks now tasks = tasks.map fun t =>
          if t.status = TaskStatus.BACKLOG ∧ t.createdOn < now - STALE_TASK_DAYS
          then { t with status := TaskStatus.ARCHIVE } else t := by
        unfold archiveOldTasks
        rw [if_neg hemp]
      rw [get_congr e0 i (by rw [length_archiveOldTasks]; exact hi) (by simpa using hi)]
      have e1 : ((tasks.map fun t =>
          if t.status = TaskStatus.BACKLOG ∧ t.createdOn < now - STALE_TASK_DAYS
          then { t with status := TaskStatus.ARCHIVE } else t).get
            ⟨i, by simpa using hi⟩) =
          (if (tasks.get ⟨i, hi⟩).status = TaskStatus.BACKLOG ∧
              (tasks.get ⟨i, hi⟩).createdOn < now - STALE_TASK_DAYS
           then { tasks.get ⟨i, hi⟩ with status := TaskStatus.ARCHIVE }
           else tasks.get ⟨i, hi⟩) := by
        simp [List.get_eq_getElem, List.getElem_map]
      rw [e1, if_neg]
      rintro ⟨h, -⟩
      rw [harch] at h
      cases h

theorem no_resurrection_from_archive_witness :
    (sample "z" "u" Priority.P1 TaskStatus.ARCHIVE 0 ∈
      enforceWipOnCreate DEFAULT_WIP_LIMITS
        [sample "n" "u" Priority.P1 TaskStatus.TODAY 5,
         sample "z" "u" Priority.P1 TaskStatus.ARCHIVE 0]
        (sample "n" "u" Priority.P1 TaskStatus.TODAY 5)) ∧
    (sample "z" "u" Priority.P1 TaskStatus.ARCHIVE 0 ∈
      enforceWipOnUpdate DEFAULT_WIP_LIMITS 3
        [sample "n" "u" Priority.P1 TaskStatus.TODAY 5,
         sample "z" "u" Priority.P1 TaskStatus.ARCHIVE 0]
        (sample "n" "u" Priority.P1 TaskStatus.BACKLOG 5)
        (sample "n" "u" Priority.P1 TaskStatus.TODAY 5)) ∧
    ((dailyTriage DEFAULT_WIP_LIMITS
        [sample "z" "u" Priority.P1 TaskStatus.ARCHIVE 0]).get ⟨0, by decide⟩ =
      sample "z" "u" Priority.P1 TaskStatus.ARCHIVE 0) ∧
    ((archiveOldTasks 100
        [sample "z" "u" Priority.P1 TaskStatus.ARCHIVE 0]).get ⟨0, by decide⟩ =
      sample "z" "u" Priority.P1 TaskStatus.ARCHIVE 0) := by
  have h := no_resurrection_from_archive DEFAULT_WIP_LIMITS 100
    [sample "z" "u" Priority.P1 TaskStatus.ARCHIVE 0]
    (sample "n" "u" Priority.P1 TaskStatus.TODAY 5)
    (sample "n" "u" Priority.P1 TaskStatus.BACKLOG 5)
    (sample "n" "u" Priority.P1 TaskStatus.TODAY 5)
    [sample "z" "u" Priority.P1 TaskStatus.ARCHIVE 0]
  have h2 := no_resurrection_from_archive DEFAULT_WIP_LIMITS 3
    [sample "z" "u" Priority.P1 TaskStatus.ARCHIVE 0]
    (sample "n" "u" Priority.P1 TaskStatus.TODAY 5)
    (sample "n" "u" Priority.P1 TaskStatus.BACKLOG 5)
    (sample "n" "u" Priority.P1 TaskStatus.TODAY 5)
    [sample "z" "u" Priority.P1 TaskStatus.ARCHIVE 0]
  exact ⟨h.1 (by decide) _ (by decide) (by decide),
    h2.2.1 (by decide) _ (by decide) (by decide),
    h.2.2.1 (by decide) 0 (by decide) (by decide),
    h.2.2.2 0 (by decide) (by decide)⟩

theorem dailyTriage_eq (limits : WipLimits) (tasks : List Task) :
    dailyTriage limits tasks =
      (demotionPhase tasks).map fun t =>
        if t.id ∈ promotedIds limits (queuedSorted (demotionPhase tasks))
        then { t with status := TaskStatus.TODAY }
        else t :=
  rfl

/-! ### C10: the scheduled jobs write only the status field -/

/-- C10: every document position survives a Daily Triage run and a Stale
Archiver run with all fields except `status` unchanged, and a document
not selected by the run (for triage: not in `Today` and not promoted;
for the archiver: not matching the stale selection) is entirely
unchanged. -/
theorem scheduled_jobs_touch_only_status (limits : WipLimits) (now : Int)
    (tasks : List Task) :
    ∀ i, (hi : i < tasks.length) →
      (((dailyTriage limits tasks).get ⟨i, by rw [length_dailyTriage]; exact hi⟩).id =
          (tasks.get ⟨i, hi⟩).id ∧
        ((dailyTriage limits tasks).get ⟨i, by rw [length_dailyTriage]; exact hi⟩).projectId =
          (tasks.get ⟨i, hi⟩).projectId ∧
        ((dailyTriage limits tasks).get ⟨i, by rw [length_dailyTriage]; exact hi⟩).owner =
          (tasks.get ⟨i, hi⟩).owner ∧
        ((dailyTriage limits tasks).get ⟨i, by rw [length_dailyTriage]; exact hi⟩).title =
          (tasks.get ⟨i, hi⟩).title ∧
        ((dailyTriage limits tasks).get ⟨i, by rw [length_dailyTriage]; exact hi⟩).description =
          (tasks.get ⟨i, hi⟩).description ∧
        ((dailyTriage limits tasks).get ⟨i, by rw [length_dailyTriage]; exact hi⟩).priority =
          (tasks.get ⟨i, hi⟩).priority ∧
        ((dailyTriage limits tasks).get ⟨i, by rw [length_dailyTriage]; exact hi⟩).createdOn =
          (tasks.get ⟨i, hi⟩).createdOn ∧
        ((dailyTriage limits tasks).get ⟨i, by rw [length_dailyTriage]; exact hi⟩).dueDate =
          (tasks.get ⟨i, hi⟩).dueDate ∧
        ((dailyTriage limits tasks).get ⟨i, by rw [length_dailyTriage]; exact hi⟩).completedOn =
          (tasks.get ⟨i, hi⟩).completedOn) ∧
      ((tasks.get ⟨i, hi⟩).status ≠ TaskStatus.TODAY →
        (tasks.get ⟨i, hi⟩).id ∉ promotedIds limits (queuedSorted (demotionPhase tasks)) →
        (dailyTriage limits tasks).get ⟨i, by rw [length_dailyTriage]; exact hi⟩ =
          tasks.get ⟨i, hi⟩) ∧
      (((archiveOldTasks now tasks).get ⟨i, by rw [length_archiveOldTasks]; exact hi⟩).id =
          (tasks.get ⟨i, hi⟩).id ∧
        ((archiveOldTasks now tasks).get ⟨i, by rw [length_archiveOldTasks]; exact hi⟩).projectId =
          (tasks.get ⟨i, hi⟩).projectId ∧
        ((archiveOldTasks now tasks).get ⟨i, by rw [length_archiveOldTasks]; exact hi⟩).owner =
          (tasks.get ⟨i, hi⟩).owner ∧
        ((archiveOldTasks now tasks).get ⟨i, by rw [length_archiveOldTasks]; exact hi⟩).title =
          (tasks.get ⟨i, hi⟩).title ∧
        ((archiveOldTasks now tasks).get ⟨i, by rw [length_archiveOldTasks]; exact hi⟩).description =
          (tasks.get ⟨i, hi⟩).description ∧
        ((archiveOldTasks now tasks).get ⟨i, by rw [length_archiveOldTasks]; exact hi⟩).priority =
          (tasks.get ⟨i, hi⟩).priority ∧
        ((archiveOldTasks now tasks).get ⟨i, by rw [length_archiveOldTasks]; exact hi⟩).createdOn =
          (tasks.get ⟨i, hi⟩).createdOn ∧
        ((archiveOldTasks now tasks).get ⟨i, by rw [length_archiveOldTasks]; exact hi⟩).dueDate =
          (tasks.get ⟨i, hi⟩).dueDate ∧
        ((archiveOldTasks now tasks).get ⟨i, by rw [length_archiveOldTasks]; exact hi⟩).completedOn =
          (tasks.get ⟨i, hi⟩).completedOn) ∧
      (¬ ((tasks.get ⟨i, hi⟩).status = TaskStatus.BACKLOG ∧
            (tasks.get ⟨i, hi⟩).createdOn < now - STALE_TASK_DAYS) →
        (archiveOldTasks now tasks).get ⟨i, by rw [length_archiveOldTasks]; exact hi⟩ =
          tasks.get ⟨i, hi⟩) := by
  intro i hi
  have e1 : (dailyTriage limits tasks).get ⟨i, by rw [length_dailyTriage]; exact hi⟩ =
      (if (demoteTask (tasks.get ⟨i, hi⟩)).id ∈
          promotedIds limits (queuedSorted (demotionPhase tasks))
       then { demoteTask (tasks.get ⟨i, hi⟩) with status := TaskStatus.TODAY }
       else demoteTask (tasks.get ⟨i, hi⟩)) := by
    simp [dailyTriage, demotionPhase, List.get_eq_getElem, List.getElem_map]
  have harch : ∀ hemp : ¬ (staleSelect now tasks).isEmpty = true,
      (archiveOldTasks now tasks).get ⟨i, by rw [length_archiveOldTasks]; exact hi⟩ =
        (if (tasks.get ⟨i, hi⟩).status = TaskStatus.BACKLOG ∧
            (tasks.get ⟨i, hi⟩).createdOn < now - STALE_TASK_DAYS
         then { tasks.get ⟨i, hi⟩ with status := TaskStatus.ARCHIVE }
         else tasks.get ⟨i, hi⟩) := by
    intro hemp
    have e0 : archiveOldTasks now tasks = tasks.map fun t =>
        if t.status = TaskStatus.BACKLOG ∧ t.createdOn < now - STALE_TASK_DAYS
        then { t with status := TaskStatus.ARCHIVE } else t := by
      unfold archiveOldTasks
      rw [if_neg hemp]
    rw [get_congr e0 i (by rw [length_archiveOldTasks]; exact hi) (by simpa using hi)]
    simp [List.get_eq_getElem, List.getElem_map]
  refine ⟨?_, ?_, ?_, ?_⟩
  · rw [e1]
    split <;>
      simp [demoteTask_id, demoteTask_projectId, demoteTask_owner, demoteTask_title,
        demoteTask_description, demoteTask_priority, demoteTask_createdOn,
        demoteTask_dueDate, demoteTask_completedOn]
  · intro hst hnp
    rw [e1, demoteTask_eq_self _ hst, if_neg hnp]
  · by_cases hemp : (staleSelect now tasks).isEmpty = true
    · have e0 : archiveOldTasks now tasks = tasks := by
        unfold archiveOldTasks
        rw [if_pos hemp]
      rw [get_congr e0 i (by rw [length_archiveOldTasks]; exact hi) hi]
      exact ⟨rfl, rfl, rfl, rfl, rfl, rfl, rfl, rfl, rfl⟩
    · rw [harch hemp]
      split <;> simp
  · intro hsel
    by_cases hemp : (staleSelect now tasks).isEmpty = true
    · have e0 : archiveOldTasks now tasks = tasks := by
        unfold archiveOldTasks
        rw [if_pos hemp]
      exact get_congr e0 i _ hi
    · rw [harch hemp, if_neg hsel]

theorem scheduled_jobs_touch_only_status_witness :
    ((dailyTriage DEFAULT_WIP_LIMITS
        [sample "a" "u" Priority.P1 TaskStatus.BACKLOG 1]).get ⟨0, by decide⟩).createdOn =
      (1 : Int) ∧
    (archiveOldTasks 100
        [sample "a" "u" Priority.P1 TaskStatus.DONE 1]).get ⟨0, by decide⟩ =
      sample "a" "u" Priority.P1 TaskStatus.DONE 1 := by
  constructor
  · have h := (scheduled_jobs_touch_only_status DEFAULT_WIP_LIMITS 100
      [sample "a" "u" Priority.P1 TaskStatus.BACKLOG 1] 0 (by decide)).1.2.2.2.2.2.2.1
    rw [h]
    decide
  · exact (scheduled_jobs_touch_only_status DEFAULT_WIP_LIMITS 100
      [sample "a" "u" Priority.P1 TaskStatus.DONE 1] 0 (by decide)).2.2.2 (by decide)

/-! ### C6: the Daily Triage is idempotent -/

theorem demote_promote (t : Task) (hb : t.status = TaskStatus.BACKLOG) :
    demoteTask { t with status := TaskStatus.TODAY } = t := by
  cases t
  unfold demoteTask
  simp_all

/-- C6: running the Daily Triage twice with no intervening writes leaves
the state of the second run identical to the state after the first: the
second run demotes exactly the promoted tasks and re-promotes the same
ones (document ids and creation timestamps are duplicate-free). -/
theorem dailyTriage_idempotent (limits : WipLimits) (tasks : List Task)
    (hids : (tasks.map Task.id).Nodup)
    (hkeys : (tasks.map Task.createdOn).Nodup) :
    dailyTriage limits (dailyTriage limits tasks) = dailyTriage limits tasks := by
  have hids1 : ((demotionPhase tasks).map Task.id).Nodup := by
    rw [map_id_demotionPhase]; exact hids
  have hfix : demotionPhase (dailyTriage limits tasks) = demotionPhase tasks := by
    rw [dailyTriage_eq]
    show ((demotionPhase tasks).map _).map demoteTask = demotionPhase tasks
    rw [List.map_map]
    calc ((demotionPhase tasks).map
          (demoteTask ∘ fun t =>
            if t.id ∈ promotedIds limits (queuedSorted (demotionPhase tasks))
            then { t with status := TaskStatus.TODAY } else t))
        = (demotionPhase tasks).map id := by
          apply List.map_congr_left
          intro t ht
          show demoteTask
            (if t.id ∈ promotedIds limits (queuedSorted (demotionPhase tasks))
             then { t with status := TaskStatus.TODAY } else t) = t
          by_cases hmem : t.id ∈ promotedIds limits (queuedSorted (demotionPhase tasks))
          · rw [if_pos hmem]
            exact demote_promote t
              (mem_promotedIds_elim limits (demotionPhase tasks) hids1 ht hmem).1
          · rw [if_neg hmem]
            exact demoteTask_eq_self t (mem_demotionPhase_status_ne_today ht)
      _ = demotionPhase tasks := List.map_id _
  conv_lhs => rw [dailyTriage_eq, hfix]
  rw [dailyTriage_eq]

theorem dailyTriage_idempotent_witness :
    dailyTriage DEFAULT_WIP_LIMITS (dailyTriage DEFAULT_WIP_LIMITS
        [sample "a" "u" Priority.P1 TaskStatus.BACKLOG 1,
         sample "b" "u" Priority.P1 TaskStatus.BACKLOG 2,
         sample "c" "u" Priority.P1 TaskStatus.BACKLOG 3,
         sample "d" "u" Priority.P1 TaskStatus.BACKLOG 4]) =
      dailyTriage DEFAULT_WIP_LIMITS
        [sample "a" "u" Priority.P1 TaskStatus.BACKLOG 1,
         sample "b" "u" Priority.P1 TaskStatus.BACKLOG 2,
         sample "c" "u" Priority.P1 TaskStatus.BACKLOG 3,
         sample "d" "u" Priority.P1 TaskStatus.BACKLOG 4] :=
  dailyTriage_idempotent DEFAULT_WIP_LIMITS
    [sample "a" "u" Priority.P1 TaskStatus.BACKLOG 1,
     sample "b" "u" Priority.P1 TaskStatus.BACKLOG 2,
     sample "c" "u" Priority.P1 TaskStatus.BACKLOG 3,
     sample "d" "u" Priority.P1 TaskStatus.BACKLOG 4]
    (by decide) (by decide)

/-! ### C4: the Daily Triage promotes exactly the oldest queued tasks -/

/-- The promotion rank of a task: how many queued tasks of the same owner
and priority are strictly older (smaller `createdOn`).  "Being among the
first `k` in ascending `createdOn` order" is `rankWithin q t < k`. -/
def rankWithin (q : List Task) (t : Task) : Nat :=
  (q.filter fun s =>
    s.owner == t.owner && s.priority == t.priority && decide (s.createdOn < t.createdOn)).length

/-- A queued task's id is collected by the promotion step exactly when
its priority is P1 or P2 and fewer than the corresponding limit of
same-owner same-priority queued tasks are strictly older. -/
theorem promoted_iff_rank (limits : WipLimits) (s1 : List Task)
    (hids : (s1.map Task.id).Nodup) (hkeys : (s1.map Task.createdOn).Nodup)
    {t : Task} (ht : t ∈ s1) (hb : t.status = TaskStatus.BACKLOG) :
    t.id ∈ promotedIds limits (queuedSorted s1) ↔
      ((t.priority = Priority.P1 ∧
          rankWithin (s1.filter fun s => s.status == TaskStatus.BACKLOG) t <
            limits.p1MaxToday) ∨
        (t.priority = Priority.P2 ∧
          rankWithin (s1.filter fun s => s.status == TaskStatus.BACKLOG) t <
            limits.p2MaxToday)) := by
  have hperm : List.Perm (queuedSorted s1) (s1.filter fun s => s.status == TaskStatus.BACKLOG) :=
    List.perm_insertionSort createdOnLE _
  have htqf : t ∈ s1.filter fun s => s.status == TaskStatus.BACKLOG :=
    List.mem_filter.mpr ⟨ht, by simp [hb]⟩
  have htq : t ∈ queuedSorted s1 := hperm.mem_iff.mpr htqf
  have hqf_ids : ((s1.filter fun s => s.status == TaskStatus.BACKLOG).map Task.id).Nodup :=
    hids.sublist ((List.filter_sublist s1).map Task.id)
  have hq_ids : ((queuedSorted s1).map Task.id).Nodup :=
    ((hperm.map Task.id).nodup_iff).mpr hqf_ids
  have hqf_keys : ((s1.filter fun s => s.status == TaskStatus.BACKLOG).map Task.createdOn).Nodup :=
    hkeys.sublist ((List.filter_sublist s1).map Task.createdOn)
  have hq_keys : ((queuedSorted s1).map Task.createdOn).Nodup :=
    ((hperm.map Task.createdOn).nodup_iff).mpr hqf_keys
  have hsorted : List.Sorted createdOnLE (queuedSorted s1) :=
    List.sorted_insertionSort createdOnLE _
  have key : ∀ (pj : Priority) (lim : Nat), t.priority = pj →
      (t ∈ (((queuedSorted s1).filter fun s => s.owner == t.owner).filter
          fun s => s.priority == pj).take lim ↔
        rankWithin (s1.filter fun s => s.status == TaskStatus.BACKLOG) t < lim) := by
    intro pj lim hpj
    have hsub : List.Sublist
        (((queuedSorted s1).filter fun s => s.owner == t.owner).filter
          fun s => s.priority == pj) (queuedSorted s1) :=
      (List.filter_sublist _).trans (List.filter_sublist _)
    have hsor : List.Sorted createdOnLE
        (((queuedSorted s1).filter fun s => s.owner == t.owner).filter
          fun s => s.priority == pj) :=
      (hsorted.filter _).filter _
    have hkeysj :
        ((((queuedSorted s1).filter fun s => s.owner == t.owner).filter
          fun s => s.priority == pj).map Task.createdOn).Nodup :=
      hq_keys.sublist (hsub.map _)
    have htlj : t ∈ ((queuedSorted s1).filter fun s => s.owner == t.owner).filter
        fun s => s.priority == pj :=
      List.mem_filter.mpr ⟨List.mem_filter.mpr ⟨htq, by simp⟩, by simp [hpj]⟩
    rw [mem_take_iff_rank hsor hkeysj htlj lim]
    have hlen : ((((queuedSorted s1).filter fun s => s.owner == t.owner).filter
          fun s => s.priority == pj).filter
            fun s => decide (s.createdOn < t.createdOn)).length =
        rankWithin (s1.filter fun s => s.status == TaskStatus.BACKLOG) t := by
      unfold rankWithin
      rw [List.filter_filter, List.filter_filter, (hperm.filter _).length_eq]
      congr 1
      apply List.filter_congr
      intro s _
      rw [hpj]
      cases h1 : s.owner == t.owner <;> cases h2 : s.priority == pj <;>
        cases h3 : decide (s.createdOn < t.createdOn) <;> simp [h1, h2, h3]
    rw [hlen]
  rw [mem_promotedIds_iff limits (queuedSorted s1) hq_ids t htq]
  by_cases hp1 : t.priority = Priority.P1
  · rw [key Priority.P1 limits.p1MaxToday hp1]
    constructor
    · rintro (h | h)
      · exact Or.inl ⟨hp1, h⟩
      · have h2 := (List.mem_filter.mp (List.mem_of_mem_take h)).2
        rw [beq_iff_eq] at h2
        rw [hp1] at h2
        cases h2
    · rintro (⟨-, h⟩ | ⟨h2, -⟩)
      · exact Or.inl h
      · rw [hp1] at h2
        cases h2
  · by_cases hp2 : t.priority = Priority.P2
    · rw [key Priority.P2 limits.p2MaxToday hp2]
      constructor
      · rintro (h | h)
        · have h2 := (List.mem_filter.mp (List.mem_of_mem_take h)).2
          rw [beq_iff_eq] at h2
          exact absurd h2 hp1
        · exact Or.inr ⟨hp2, h⟩
      · rintro (⟨h2, -⟩ | ⟨-, h⟩)
        · exact absurd h2 hp1
        · exact Or.inr h
    · constructor
      · rintro (h | h)
        · have h2 := (List.mem_filter.mp (List.mem_of_mem_take h)).2
          rw [beq_iff_eq] at h2
          exact absurd h2 hp1
        · have h2 := (List.mem_filter.mp (List.mem_of_mem_take h)).2
          rw [beq_iff_eq] at h2
          exact absurd h2 hp2
      · rintro (⟨h, -⟩ | ⟨h, -⟩)
        · exact absurd h hp1
        · exact absurd h hp2

/-- C4: in a collection with duplicate-free ids and creation timestamps,
a Daily Triage run turns a post-demotion queued task to `Today` exactly
when it is among the first `p1MaxToday` P1 tasks, or first `p2MaxToday`
P2 tasks, of its owner in ascending `createdOn` order within the queued
tasks; every other queued task keeps its `Backlog` status and value. -/
theorem dailyTriage_promotes_oldest (limits : WipLimits) (tasks : List Task)
    (hids : (tasks.map Task.id).Nodup)
    (hkeys : (tasks.map Task.createdOn).Nodup)
    (i : Nat) (hi : i < tasks.length)
    (hq : ((demotionPhase tasks).get
      ⟨i, by rw [length_demotionPhase]; exact hi⟩).status = TaskStatus.BACKLOG) :
    (dailyTriage limits tasks).get ⟨i, by rw [length_dailyTriage]; exact hi⟩ =
      (if (((demotionPhase tasks).get
              ⟨i, by rw [length_demotionPhase]; exact hi⟩).priority = Priority.P1 ∧
            rankWithin ((demotionPhase tasks).filter fun s => s.status == TaskStatus.BACKLOG)
                ((demotionPhase tasks).get ⟨i, by rw [length_demotionPhase]; exact hi⟩) <
              limits.p1MaxToday) ∨
          (((demotionPhase tasks).get
              ⟨i, by rw [length_demotionPhase]; exact hi⟩).priority = Priority.P2 ∧
            rankWithin ((demotionPhase tasks).filter fun s => s.status == TaskStatus.BACKLOG)
                ((demotionPhase tasks).get ⟨i, by rw [length_demotionPhase]; exact hi⟩) <
              limits.p2MaxToday)
       then { (demotionPhase tasks).get ⟨i, by rw [length_demotionPhase]; exact hi⟩ with
                status := TaskStatus.TODAY }
       else (demotionPhase tasks).get ⟨i, by rw [length_demotionPhase]; exact hi⟩) := by
  have hids1 : ((demotionPhase tasks).map Task.id).Nodup := by
    rw [map_id_demotionPhase]; exact hids
  have hkeys1 : ((demotionPhase tasks).map Task.createdOn).Nodup := by
    rw [map_createdOn_demotionPhase]; exact hkeys
  have e2 : (demotionPhase tasks).get ⟨i, by rw [length_demotionPhase]; exact hi⟩ =
      demoteTask (tasks.get ⟨i, hi⟩) := by
    simp [demotionPhase, List.get_eq_getElem, List.getElem_map]
  have e1 : (dailyTriage limits tasks).get ⟨i, by rw [length_dailyTriage]; exact hi⟩ =
      (if (demoteTask (tasks.get ⟨i, hi⟩)).id ∈
          promotedIds limits (queuedSorted (demotionPhase tasks))
       then { demoteTask (tasks.get ⟨i, hi⟩) with status := TaskStatus.TODAY }
       else demoteTask (tasks.get ⟨i, hi⟩)) := by
    simp [dailyTriage, demotionPhase, List.get_eq_getElem, List.getElem_map]
  rw [e2] at hq
  rw [e1, e2]
  have htmem : demoteTask (tasks.get ⟨i, hi⟩) ∈ demotionPhase tasks :=
    List.mem_map_of_mem demoteTask (tasks.get_mem i hi)
  have hiff := promoted_iff_rank limits (demotionPhase tasks) hids1 hkeys1 htmem hq
  by_cases hR : ((demoteTask (tasks.get ⟨i, hi⟩)).priority = Priority.P1 ∧
      rankWithin ((demotionPhase tasks).filter fun s => s.status == TaskStatus.BACKLOG)
          (demoteTask (tasks.get ⟨i, hi⟩)) < limits.p1MaxToday) ∨
      ((demoteTask (tasks.get ⟨i, hi⟩)).priority = Priority.P2 ∧
      rankWithin ((demotionPhase tasks).filter fun s => s.status == TaskStatus.BACKLOG)
          (demoteTask (tasks.get ⟨i, hi⟩)) < limits.p2MaxToday)
  · rw [if_pos (hiff.mpr hR), if_pos hR]
  · rw [if_neg (fun hmem => hR (hiff.mp hmem)), if_neg hR]

theorem dailyTriage_promotes_oldest_witness :
    (dailyTriage { p1MaxToday := 1, p2MaxToday := 5 }
        [sample "a" "u" Priority.P1 TaskStatus.BACKLOG 1,
         sample "b" "u" Priority.P1 TaskStatus.BACKLOG 2]).get ⟨1, by decide⟩ =
      sample "b" "u" Priority.P1 TaskStatus.BACKLOG 2 := by
  have h := dailyTriage_promotes_oldest { p1MaxToday := 1, p2MaxToday := 5 }
    [sample "a" "u" Priority.P1 TaskStatus.BACKLOG 1,
     sample "b" "u" Priority.P1 TaskStatus.BACKLOG 2]
    (by decide) (by decide) 1 (by decide) (by decide)
  rw [h]
  decide

end TaskManager
